import Mathlib

/-!
# Verification of the photo-site page-behavior layer

Shallow embedding of the two source files of the repository:
`src/script.js` and the unnamed variant `src/unnamed/part_000`.
The two files share the hover-spotlight, equalizer, focus, lazy-loading
and load-timer modules verbatim, but carry two different versions of the
theme-toggle module; both theme variants are embedded (prefixed `sj` for
`script.js`, `p0` for `part_000`).

Conventions of the embedding:
  * DOM class / attribute state is carried in explicit record types.
  * Event-driven code becomes a step function on the record type; event
    preconditions (an event can only be delivered to an element that
    exists / is still observed) make the step function return `Option`.
  * `localStorage` is a value `Option String` for the single key used;
    a call that may throw is modelled by a `Bool` flag (`storageFails`)
    or by `Except Unit`, and a handler that lets the exception escape
    returns the exception as an explicit `Bool` component.
  * Times are integers (milliseconds); `Math.round` on a CSS pixel
    measure becomes `⌊q + 1/2⌋` on `ℚ`.
-/

/-! ## Theme toggle, `script.js` variant (lines 201-248)

State of the DOM pieces the module touches: `document.documentElement.dataset.theme`,
the button's `aria-pressed` attribute, and the `localStorage` entry under
the key `"theme"`. -/

structure SJTheme where
  rootTheme : String
  ariaPressed : Bool
  storage : Option String
  deriving Repr, DecidableEq

/-- `script.js` `applyTheme(mode, persist)`.  The second component of the
result is whether an exception escaped the call: the `try`/`catch` around
`localStorage.setItem` swallows a storage failure, so it is always
`false`. -/
def sjApplyTheme (st : SJTheme) (mode : String) (persist : Bool)
    (storageFails : Bool) : SJTheme × Bool :=
  let normalized := if mode = "dark" then "dark" else "light"
  let st := { st with rootTheme := normalized, ariaPressed := normalized = "dark" }
  if persist then
    if storageFails then (st, false)
    else ({ st with storage := some normalized }, false)
  else (st, false)

/-- `script.js` lines 223-231: the `initial` value.  The argument is the
result of `localStorage.getItem("theme")`: `.error ()` when storage
throws, otherwise the stored value. -/
def sjInitialTheme (getItemResult : Except Unit (Option String)) : String :=
  match getItemResult with
  | .error _ => "light"
  | .ok (some s) => if s = "dark" ∨ s = "light" then s else "light"
  | .ok none => "light"

/-- Module initialization (`applyTheme(initial, false)`), starting from a
store holding `stored` (which `getItem` either returns or throws past,
per `throws`). -/
def sjInit (stored : Option String) (throws : Bool) : SJTheme :=
  let g : Except Unit (Option String) := if throws then .error () else .ok stored
  (sjApplyTheme { rootTheme := "", ariaPressed := false, storage := stored }
    (sjInitialTheme g) false false).1

/-- `script.js` click handler (lines 243-247). -/
def sjClick (st : SJTheme) (storageFails : Bool) : SJTheme × Bool :=
  let next := if st.rootTheme = "dark" then "light" else "dark"
  sjApplyTheme st next true storageFails

/-- `script.js` registers no listener for the `prefers-color-scheme`
media query, so a change of the system color-scheme preference runs no
code of the module: the state is untouched. -/
def sjSysChange (st : SJTheme) (_matches : Bool) : SJTheme :=
  st

/-! ## Theme toggle, `part_000` variant (lines 204-259)

Additional DOM pieces: `body.classList` `is-dark`, the button's `is-on`
class, the double-tap timestamp `lastTap`, and the current value of
`mql.matches` (the system color-scheme preference), kept in the state so
that the `touchend` handler can read it. -/

structure P0Theme where
  rootTheme : Option String
  isDarkClass : Bool
  ariaPressed : Bool
  isOnClass : Bool
  storage : Option String
  lastTap : Int
  osDark : Bool
  deriving Repr, DecidableEq

/-- `part_000` `applyTheme(mode, { save })`.  `localStorage.setItem` is
NOT wrapped in `try`/`catch` here: when saving and the store throws, the
exception escapes (second component `true`); the DOM updates before the
store write, so they survive the throw. -/
def p0ApplyTheme (st : P0Theme) (mode : String) (save : Bool)
    (storageFails : Bool) : P0Theme × Bool :=
  let isDark := mode = "dark"
  let st := { st with rootTheme := some mode, isDarkClass := isDark,
                      ariaPressed := isDark, isOnClass := isDark }
  if save then
    if storageFails then (st, true)
    else ({ st with storage := some mode }, false)
  else (st, false)

/-- `part_000` `getInitialTheme()` (lines 215-219): saved value when it
is exactly `light` or `dark`, else the system preference. -/
def p0GetInitialTheme (saved : Option String) (mqlMatches : Bool) : String :=
  match saved with
  | some s => if s = "light" ∨ s = "dark" then s
              else if mqlMatches then "dark" else "light"
  | none => if mqlMatches then "dark" else "light"

/-- `part_000` click handler (lines 235-239). -/
def p0Click (st : P0Theme) (storageFails : Bool) : P0Theme × Bool :=
  let current := st.rootTheme.getD "light"
  let next := if current = "dark" then "light" else "dark"
  p0ApplyTheme st next true storageFails

/-- `part_000` `mql` change listener (lines 242-246): records the new
`matches` value; when no preference is stored, re-applies the theme
resolved from it (without saving). -/
def p0SysChange (st : P0Theme) (mMatches : Bool) : P0Theme :=
  let st := { st with osDark := mMatches }
  if st.storage = none then
    (p0ApplyTheme st (if mMatches then "dark" else "light") false false).1
  else st

/-- `part_000` `touchend` handler (lines 251-258): a tap within 350ms of
the previous one removes the saved choice and re-applies the theme from
the current system preference. -/
def p0TouchEnd (st : P0Theme) (now : Int) : P0Theme :=
  if now - st.lastTap < 350 then
    let st := { st with storage := none }
    let st := (p0ApplyTheme st (if st.osDark then "dark" else "light") false false).1
    { st with lastTap := now }
  else
    { st with lastTap := now }

/-- The spec's initial-state resolution, written from the spec's words
(for comparison with the source embeddings): stored preference if present
and exactly `light`/`dark`, otherwise — absent, invalid or storage
throwing — the operating-system color-scheme preference. -/
def specInitialTheme (getItemResult : Except Unit (Option String))
    (osDark : Bool) : String :=
  match getItemResult with
  | .ok (some s) =>
      if s = "light" ∨ s = "dark" then s
      else if osDark then "dark" else "light"
  | _ => if osDark then "dark" else "light"

/-! ## Column equalizer (`script.js` lines 63-155, identical in `part_000`)

A column is its rendered bounding-box height with no `min-height` applied
(`natural`, a rational number of CSS pixels) together with the inline
`min-height` style (`minHeight`, in whole pixels, `none` when cleared).
A `min-height` can only grow a column, so the rendered height under a
`min-height` of `m` is `max natural m`. -/

structure Col where
  natural : ℚ
  minHeight : Option ℤ
  deriving Repr, DecidableEq

/-- A `.module` element: its `data-equalize` attribute, whether its
computed grid has a single track (the code's `singleColumn` test), and
its two `.col` children. -/
structure LayoutModule where
  dataEqualize : Option String
  singleColumn : Bool
  left : Col
  right : Col
  deriving Repr, DecidableEq

/-- JavaScript `Math.round`: round half up, `⌊q + 1/2⌋`.  Written with
integer arithmetic on the numerator and denominator so that it evaluates
by kernel reduction; `jsRound_eq_floor` below proves it is `⌊q + 1/2⌋`. -/
def jsRound (q : ℚ) : ℤ := Int.fdiv (2 * q.num + q.den) (2 * q.den)

/-- JavaScript `String.prototype.toLowerCase` for the ASCII attribute
values involved here: lower-case every character (`String.toLower` is
the same `Char.toLower` map, but is not kernel-reducible). -/
def jsToLower (s : String) : String := ⟨s.data.map Char.toLower⟩

/-- Rendered outer height of a column (`getBoundingClientRect().height`). -/
def renderedHeight (c : Col) : ℚ :=
  match c.minHeight with
  | some m => max c.natural (m : ℚ)
  | none => c.natural

/-- `columnHeight(col)` (lines 66-71). -/
def columnHeight (c : Col) : ℤ := jsRound (renderedHeight c)

/-- `clearHeights(mod)` (lines 73-75): clear `min-height` on both columns. -/
def clearHeights (m : LayoutModule) : LayoutModule :=
  { m with left.minHeight := none, right.minHeight := none }

/-- `equalizeModule(mod)` (lines 77-106). -/
def equalizeModule (m : LayoutModule) : LayoutModule :=
  let mode := jsToLower (m.dataEqualize.getD "right")
  if m.singleColumn then
    clearHeights m
  else
    let m' := clearHeights m
    if mode = "left" then
      let h := columnHeight m'.left
      if h > 0 then { m' with right.minHeight := some h } else m'
    else
      let h := columnHeight m'.right
      if h > 0 then { m' with left.minHeight := some h } else m'

/-! ## Lazy image loader (`script.js` lines 179-196, identical in `part_000`)

An image is its `src` attribute, its `data-src` attribute, whether the
intersection observer is currently observing it, and the number of load
attempts it has triggered (a load attempt is an assignment to `src`). -/

structure Img where
  src : Option String
  dataSrc : Option String
  observed : Bool
  loads : Nat
  deriving Repr, DecidableEq

/-- Effect of initialization on one image: the images selected by
`querySelectorAll("img[data-src]")` — exactly those with
`dataSrc.isSome` — become observed. -/
def obsInit (o : Img) : Img :=
  if o.dataSrc.isSome then { o with observed := true } else o

/-- What the observer callback turns an image into when it fires on it:
deferred source assigned as real source, `data-src` attribute removed,
no longer observed, one more load attempt. -/
def firedOf (o : Img) : Img :=
  { src := o.dataSrc, dataSrc := none, observed := false, loads := o.loads + 1 }

/-- Initialization (`lazyImages.forEach((img) => observer.observe(img))`). -/
def observeAll (imgs : List Img) : List Img :=
  imgs.map obsInit

/-- The body of the observer callback for one entry (lines 186-193):
when the entry is intersecting, assign `data-src` as `src`, remove the
`data-src` attribute, and unobserve.  An entry is only ever delivered
for a target the observer still observes, so the step is `none` (the
event cannot occur) on an unobserved or out-of-range target. -/
def lazyStep (imgs : List Img) (e : Nat × Bool) : Option (List Img) :=
  match imgs[e.1]? with
  | none => none
  | some img =>
    if img.observed then
      if e.2 then some (imgs.set e.1 (firedOf img))
      else some imgs
    else none

/-- Run the observer over a sequence of delivered entries. -/
def lazyRun : List Img → List (Nat × Bool) → Option (List Img)
  | imgs, [] => some imgs
  | imgs, e :: es =>
    match lazyStep imgs e with
    | some imgs' => lazyRun imgs' es
    | none => none

/-- The fallback branch (lines 181-184), taken when `IntersectionObserver`
is unavailable: assign every deferred source immediately; the `data-src`
attribute is not removed. -/
def lazyFallback (imgs : List Img) : List Img :=
  imgs.map fun img =>
    if img.dataSrc.isSome then { img with src := img.dataSrc, loads := img.loads + 1 }
    else img

/-! ## Hover spotlight and focus handling
(`script.js` lines 5-48 and 161-173, identical in `part_000`)

The hover module keeps ONE module-scoped `timer` variable shared by all
cards.  `mouseenter` on a card schedules a timeout (the reveal) and
overwrites `timer` with the new timeout's id; the `reset` handler
(`mouseleave` / `click` / `touchend` / `touchcancel`) clears the timeout
whose id is currently in `timer` — not necessarily the one scheduled for
that card.  A scheduled timeout that is never cleared fires once its due
time is reached.

The `active` and `show-caption` classes are added and removed together
at every site, so one `Bool` per card models both.  `dimMode` is the
body's `dim-mode` class. -/

structure Timeout where
  id : Nat
  card : Nat
  fireAt : Int
  deriving Repr, DecidableEq

structure HState where
  dimMode : Bool
  active : List Bool
  pending : List Timeout
  timer : Option Nat
  nextId : Nat
  deriving Repr, DecidableEq

/-- The events the two card modules react to.  `enter` and `reset` carry
the (millisecond) instant at which they occur; `fire i t` is the runtime
running card `i`'s scheduled reveal callback at instant `t`. -/
inductive HEvent where
  | enter (i : Nat) (t : Int)
  | reset (i : Nat) (t : Int)
  | fire (id : Nat) (t : Int)
  | escape
  | focusin (i : Nat)
  | focusout (i : Nat)
  deriving Repr, DecidableEq

/-- Initial state for `n` cards: nothing active, no dim, no timer. -/
def hInit (n : Nat) : HState :=
  { dimMode := false, active := List.replicate n false,
    pending := [], timer := none, nextId := 0 }

/-- One step of the combined hover (lines 16-47) and focus (lines
163-172) modules.  `none` marks an event that cannot be delivered: a
card index that does not exist, or a timeout firing that is not pending,
not yet due, or not the earliest due one. -/
def hStep (delay : Int) (s : HState) : HEvent → Option HState
  | .enter i t =>
    if i < s.active.length then
      some { s with pending := s.pending ++ [⟨s.nextId, i, t + delay⟩],
                    timer := some s.nextId, nextId := s.nextId + 1 }
    else none
  | .reset i _ =>
    if i < s.active.length then
      some { s with pending := s.pending.filter fun p => some p.id ≠ s.timer,
                    timer := none,
                    active := s.active.set i false,
                    dimMode := false }
    else none
  | .fire id t =>
    match s.pending.find? fun p => p.id = id with
    | some p =>
      if p.fireAt ≤ t ∧ ∀ q ∈ s.pending, p.fireAt ≤ q.fireAt then
        some { s with pending := s.pending.filter fun q => q.id ≠ id,
                      dimMode := true,
                      active := (List.replicate s.active.length false).set p.card true }
      else none
    | none => none
  | .escape =>
    some { s with active := List.replicate s.active.length false, dimMode := false }
  | .focusin i =>
    if i < s.active.length then
      some { s with active := s.active.set i true, dimMode := true }
    else none
  | .focusout i =>
    if i < s.active.length then
      some { s with active := s.active.set i false, dimMode := false }
    else none

/-- Run the card modules over a sequence of events. -/
def hRun (delay : Int) : HState → List HEvent → Option HState
  | s, [] => some s
  | s, e :: es =>
    match hStep delay s e with
    | some s' => hRun delay s' es
    | none => none

/-- `part_000` module initialization: `applyTheme(getInitialTheme())`
with the store holding `stored` and the media query matching `os`.
(`getInitialTheme` calls `localStorage.getItem` without `try`/`catch`;
a throwing store would propagate out of the whole IIFE, so only the
non-throwing store is modelled here.) -/
def p0Init (stored : Option String) (os : Bool) : P0Theme :=
  (p0ApplyTheme
    { rootTheme := none, isDarkClass := false, ariaPressed := false,
      isOnClass := false, storage := stored, lastTap := 0, osDark := os }
    (p0GetInitialTheme stored os) false false).1

/-! ## Helper lemmas -/

/-- `jsRound` is JavaScript's `Math.round`: `⌊q + 1/2⌋`. -/
theorem jsRound_eq_floor (q : ℚ) : jsRound q = ⌊q + 1/2⌋ := by
  have hq : q + 1/2 = ((2 * q.num + (q.den : ℤ) : ℤ) : ℚ) / (((2 * q.den : ℕ) : ℕ) : ℚ) := by
    conv_lhs => rw [← Rat.num_div_den q]
    push_cast
    field_simp
    ring
  rw [hq, Rat.floor_intCast_div_natCast, jsRound]
  rw [Int.fdiv_eq_ediv _ (by positivity)]
  push_cast
  ring_nf

/-! ## Claims about the theme toggle -/

/-- C3, counterexample.  The claim says that with no stored preference
the operating-system color-scheme preference at initialization determines
the applied theme.  In `script.js` there is no system-preference fallback
at all: with nothing stored and the system preferring dark, the module
initializes to `light`, and a system-preference change does not alter it,
diverging from the spec's resolution (`specInitialTheme`). -/
theorem sj_initial_ignores_system :
    (sjSysChange (sjInit none false) true).rootTheme = "light" ∧
    specInitialTheme (.ok none) true = "dark" ∧
    (sjInit none false).rootTheme ≠ specInitialTheme (.ok none) true := by decide

/-- C3, amended.  A stored value that is exactly `"light"` or `"dark"` is
applied by both variants.  Otherwise (absent or invalid stored value, or
— for `script.js` — storage throwing), `script.js` falls back to
`"light"` unconditionally, while `part_000` falls back to the
operating-system color-scheme preference at initialization. -/
theorem theme_initial_resolution_amended (s : String) (os : Bool) :
    ((s = "light" ∨ s = "dark") →
      sjInitialTheme (.ok (some s)) = s ∧ p0GetInitialTheme (some s) os = s) ∧
    ((s ≠ "light" ∧ s ≠ "dark") →
      sjInitialTheme (.ok (some s)) = "light" ∧
      p0GetInitialTheme (some s) os = (if os then "dark" else "light")) ∧
    sjInitialTheme (.ok none) = "light" ∧
    sjInitialTheme (.error ()) = "light" ∧
    p0GetInitialTheme none os = (if os then "dark" else "light") := by
  refine ⟨?_, ?_, ?_, ?_, ?_⟩
  · rintro (rfl | rfl) <;> cases os <;> decide
  · rintro ⟨h1, h2⟩
    constructor
    · simp [sjInitialTheme, h1, h2]
    · simp [p0GetInitialTheme, h1, h2]
  · decide
  · decide
  · cases os <;> decide

/-- Witness for `theme_initial_resolution_amended` at `s = "dark"`. -/
theorem theme_initial_resolution_amended_witness :
    sjInitialTheme (.ok (some "dark")) = "dark" ∧
    p0GetInitialTheme (some "dark") true = "dark" :=
  (theme_initial_resolution_amended "dark" true).1 (Or.inr rfl)

/-- C5, counterexample.  In the `part_000` variant, `applyTheme` calls
`localStorage.setItem` without `try`/`catch`, so a toggle click with a
throwing store lets the exception escape the click handler (second
component `true`), though the displayed theme has already changed. -/
theorem p0_toggle_storage_throw_escapes :
    (p0Click (p0Init none false) true).2 = true ∧
    (p0Click (p0Init none false) true).1.rootTheme = some "dark" := by decide

/-- C5, amended.  On every toggle activation the displayed theme (root
attribute) flips regardless of a storage failure in both variants; in
`script.js` the failure is caught locally and no exception escapes the
handler, while in `part_000` the `setItem` exception escapes exactly when
the store fails. -/
theorem toggle_storage_failure_amended (st : SJTheme) (st0 : P0Theme) (fails : Bool) :
    (sjClick st fails).2 = false ∧
    (sjClick st fails).1.rootTheme = (if st.rootTheme = "dark" then "light" else "dark") ∧
    (p0Click st0 fails).1.rootTheme =
      some (if st0.rootTheme.getD "light" = "dark" then "light" else "dark") ∧
    (p0Click st0 fails).2 = fails := by
  cases fails <;>
    by_cases h : st.rootTheme = "dark" <;>
      by_cases h0 : st0.rootTheme.getD "light" = "dark" <;>
        simp [sjClick, sjApplyTheme, p0Click, p0ApplyTheme, h, h0]

/-- C6, counterexample.  In `script.js` no `prefers-color-scheme` change
listener exists: with no preference ever stored, a system-preference
change to dark leaves the applied theme at `light`, so the live-follow
behavior the claim describes does not hold for `script.js`. -/
theorem sj_system_change_ignored :
    (sjInit none false).storage = none ∧
    (sjSysChange (sjInit none false) true).rootTheme = "light" ∧
    (sjSysChange (sjInit none false) true).rootTheme ≠ "dark" := by decide

/-- C6, amended.  In the `part_000` variant only: while no preference is
currently stored, a system-preference change re-applies the resolved
theme (without storing it); while a preference is stored, the change
handler only records the new media-query value and applies nothing; and
a successful toggle click always stores a preference.  (The double-tap
handler can later remove the stored preference, after which changes are
followed again, so "ignored thereafter" holds only while the preference
remains stored.) -/
theorem p0_live_follow_amended (st : P0Theme) (m : Bool) :
    (st.storage = none →
      (p0SysChange st m).rootTheme = some (if m then "dark" else "light") ∧
      (p0SysChange st m).storage = none) ∧
    (∀ v, st.storage = some v → p0SysChange st m = { st with osDark := m }) ∧
    (p0Click st false).1.storage =
      some (if st.rootTheme.getD "light" = "dark" then "light" else "dark") := by
  refine ⟨?_, ?_, ?_⟩
  · intro h; cases m <;> simp [p0SysChange, p0ApplyTheme, h]
  · intro v h; simp [p0SysChange, p0ApplyTheme, h]
  · by_cases h0 : st.rootTheme.getD "light" = "dark" <;>
      simp [p0Click, p0ApplyTheme, h0]

/-- Witness for `p0_live_follow_amended`: fresh module, nothing stored,
system flips to dark, theme follows. -/
theorem p0_live_follow_amended_witness :
    (p0SysChange (p0Init none false) true).rootTheme = some "dark" ∧
    (p0SysChange (p0Init none false) true).storage = none :=
  (p0_live_follow_amended (p0Init none false) true).1 (by decide)

/-- C7.  From any applied theme `t` (`light` or `dark`), activating the
toggle twice (with the store working) returns the applied theme to `t`
and leaves `t` — the second toggle's value — as the persisted preference,
in both variants. -/
theorem toggle_twice_roundtrip (st : SJTheme) (st0 : P0Theme) (t : String)
    (hv : t = "light" ∨ t = "dark")
    (h1 : st.rootTheme = t) (h2 : st0.rootTheme = some t) :
    (sjClick (sjClick st false).1 false).1.rootTheme = t ∧
    (sjClick (sjClick st false).1 false).1.storage = some t ∧
    (p0Click (p0Click st0 false).1 false).1.rootTheme = some t ∧
    (p0Click (p0Click st0 false).1 false).1.storage = some t := by
  rcases hv with rfl | rfl <;>
    simp [sjClick, sjApplyTheme, p0Click, p0ApplyTheme, h1, h2]

/-- Witness for `toggle_twice_roundtrip`: freshly initialized modules
(applied theme `light`), two clicks. -/
theorem toggle_twice_roundtrip_witness :
    (sjClick (sjClick (sjInit none false) false).1 false).1.rootTheme = "light" ∧
    (sjClick (sjClick (sjInit none false) false).1 false).1.storage = some "light" ∧
    (p0Click (p0Click (p0Init none false) false).1 false).1.rootTheme = some "light" ∧
    (p0Click (p0Click (p0Init none false) false).1 false).1.storage = some "light" :=
  toggle_twice_roundtrip (sjInit none false) (p0Init none false) "light"
    (Or.inl rfl) (by decide) (by decide)

/-- C10.  Two `touchend` events on the toggle control less than 350ms
apart: the second removes the persisted preference, immediately
re-applies the theme resolved from the current system preference, and
restores live-follow (a subsequent system-preference change is applied
again). -/
theorem p0_double_tap_clears (st : P0Theme) (t1 t2 : Int) (h : t2 - t1 < 350) :
    (p0TouchEnd (p0TouchEnd st t1) t2).storage = none ∧
    (p0TouchEnd (p0TouchEnd st t1) t2).rootTheme =
      some (if st.osDark then "dark" else "light") ∧
    (p0TouchEnd (p0TouchEnd st t1) t2).lastTap = t2 ∧
    (∀ m, (p0SysChange (p0TouchEnd (p0TouchEnd st t1) t2) m).rootTheme =
      some (if m then "dark" else "light")) := by
  by_cases hb : t1 - st.lastTap < 350 <;>
    cases hos : st.osDark <;>
      simp [p0TouchEnd, p0ApplyTheme, p0SysChange, hb, hos, h]

/-- Witness for `p0_double_tap_clears`: dark-preferring system, taps at
1000ms and 1200ms. -/
theorem p0_double_tap_clears_witness :
    (p0TouchEnd (p0TouchEnd (p0Init none true) 1000) 1200).storage = none ∧
    (p0TouchEnd (p0TouchEnd (p0Init none true) 1000) 1200).rootTheme = some "dark" ∧
    (p0TouchEnd (p0TouchEnd (p0Init none true) 1000) 1200).lastTap = 1200 ∧
    (∀ m, (p0SysChange (p0TouchEnd (p0TouchEnd (p0Init none true) 1000) 1200) m).rootTheme =
      some (if m then "dark" else "light")) :=
  p0_double_tap_clears (p0Init none true) 1000 1200 (by decide)

/-! ## Claim about the column equalizer -/

/-- C4.  Postcondition of `equalizeModule`.  In single-column mode no
minimum height is applied and any prior one is cleared.  In two-column
mode the stretched sibling column's `min-height` equals the configured
measured column's rounded outer height — the *natural* height, because
all prior stretch heights are cleared before measuring — applied only
when positive; the measured column itself ends with no minimum height. -/
theorem equalizeModule_postcondition (m : LayoutModule) :
    (m.singleColumn →
      (equalizeModule m).left.minHeight = none ∧
      (equalizeModule m).right.minHeight = none) ∧
    (¬ m.singleColumn → jsToLower (m.dataEqualize.getD "right") = "left" →
      (equalizeModule m).right.minHeight =
        (if 0 < jsRound m.left.natural then some (jsRound m.left.natural) else none) ∧
      (equalizeModule m).left.minHeight = none) ∧
    (¬ m.singleColumn → jsToLower (m.dataEqualize.getD "right") ≠ "left" →
      (equalizeModule m).left.minHeight =
        (if 0 < jsRound m.right.natural then some (jsRound m.right.natural) else none) ∧
      (equalizeModule m).right.minHeight = none) := by
  refine ⟨?_, ?_, ?_⟩
  · intro h; simp [equalizeModule, clearHeights, h]
  · intro h1 h2
    simp only [equalizeModule, clearHeights, columnHeight, renderedHeight, h1, h2,
      if_false, if_true, gt_iff_lt]
    split_ifs <;> simp_all
  · intro h1 h2
    simp only [equalizeModule, clearHeights, columnHeight, renderedHeight, h1, h2,
      if_false, if_true, gt_iff_lt]
    split_ifs <;> simp_all

/-- Witness for `equalizeModule_postcondition`: an untagged (default
`right`) two-column module with a stale stretch height on the left
column; the left column gets the right column's rounded natural height
and the measured right column stays without a minimum. -/
theorem equalizeModule_postcondition_witness :
    (equalizeModule ⟨none, false, ⟨5, some 99⟩, ⟨10, none⟩⟩).left.minHeight =
      (if 0 < jsRound (10 : ℚ) then some (jsRound (10 : ℚ)) else none) ∧
    (equalizeModule ⟨none, false, ⟨5, some 99⟩, ⟨10, none⟩⟩).right.minHeight = none :=
  (equalizeModule_postcondition ⟨none, false, ⟨5, some 99⟩, ⟨10, none⟩⟩).2.2
    (by decide) (by decide)

/-! ## Claims about the lazy image loader -/

/-- Characterization of one observer-callback entry delivery. -/
theorem lazyStep_some {imgs imgs' : List Img} {i : Nat} {b : Bool}
    (h : lazyStep imgs (i, b) = some imgs') :
    ∃ img, imgs[i]? = some img ∧ img.observed = true ∧
      ((b = true ∧ imgs' = imgs.set i (firedOf img)) ∨
       (b = false ∧ imgs' = imgs)) := by
  unfold lazyStep at h
  cases himg : imgs[i]? with
  | none => rw [himg] at h; cases h
  | some img =>
    simp only [himg] at h
    by_cases hobs : img.observed = true
    · rw [if_pos hobs] at h
      cases b with
      | false =>
        rw [if_neg (by simp)] at h
        exact ⟨img, rfl, hobs, Or.inr ⟨rfl, (Option.some.inj h).symm⟩⟩
      | true =>
        rw [if_pos rfl] at h
        exact ⟨img, rfl, hobs, Or.inl ⟨rfl, (Option.some.inj h).symm⟩⟩
    · rw [if_neg hobs] at h; cases h

/-- The callback never adds or removes images. -/
theorem lazyRun_length : ∀ (tr : List (Nat × Bool)) (imgs cur : List Img),
    lazyRun imgs tr = some cur → cur.length = imgs.length := by
  intro tr
  induction tr with
  | nil => intro imgs cur h; cases h; rfl
  | cons e es ih =>
    intro imgs cur h
    rw [lazyRun] at h
    cases hs : lazyStep imgs e with
    | none => rw [hs] at h; cases h
    | some imgs' =>
      rw [hs] at h
      have hlen := ih imgs' cur h
      obtain ⟨i, b⟩ := e
      obtain ⟨img, _, _, hcase⟩ := lazyStep_some hs
      rcases hcase with ⟨_, rfl⟩ | ⟨_, rfl⟩
      · simpa using hlen
      · exact hlen

/-- An image that is never reported intersecting is never touched. -/
theorem lazyRun_untouched (k : Nat) :
    ∀ (tr : List (Nat × Bool)) (imgs cur : List Img),
      (k, true) ∉ tr → lazyRun imgs tr = some cur → cur[k]? = imgs[k]? := by
  intro tr
  induction tr with
  | nil => intro imgs cur _ h; cases h; rfl
  | cons e es ih =>
    intro imgs cur hmem h
    rw [lazyRun] at h
    cases hs : lazyStep imgs e with
    | none => rw [hs] at h; cases h
    | some imgs' =>
      rw [hs] at h
      have hrest := ih imgs' cur (fun hc => hmem (List.mem_cons_of_mem _ hc)) h
      rw [hrest]
      obtain ⟨i, b⟩ := e
      obtain ⟨img, himg, hobs, hcase⟩ := lazyStep_some hs
      rcases hcase with ⟨rfl, rfl⟩ | ⟨rfl, rfl⟩
      · have hne : i ≠ k := by
          rintro rfl
          exact hmem (List.mem_cons_self _ _)
        exact List.getElem?_set_ne hne
      · rfl

/-- Per-image invariant of the observer: every image is either still in
its just-observed initial shape, or has fired exactly once. -/
def LazyInv (o c : Img) : Prop :=
  c = obsInit o ∨ (o.dataSrc.isSome ∧ c = firedOf o)

/-- `LazyInv` is preserved by any accepted sequence of entry deliveries,
for initial documents whose images start unobserved. -/
theorem lazyRun_inv (imgs0 : List Img)
    (h0 : ∀ (k : Nat) (o : Img), imgs0[k]? = some o → o.observed = false) :
    ∀ (tr : List (Nat × Bool)) (imgs cur : List Img),
      lazyRun imgs tr = some cur →
      (∀ (k : Nat) (o c : Img), imgs0[k]? = some o → imgs[k]? = some c → LazyInv o c) →
      (∀ (k : Nat) (o c : Img), imgs0[k]? = some o → cur[k]? = some c → LazyInv o c) := by
  intro tr
  induction tr with
  | nil => intro imgs cur h hinv; cases h; exact hinv
  | cons e es ih =>
    intro imgs cur h hinv
    rw [lazyRun] at h
    cases hs : lazyStep imgs e with
    | none => rw [hs] at h; cases h
    | some imgs' =>
      rw [hs] at h
      refine ih imgs' cur h ?_
      intro k o c hk hk'
      obtain ⟨i, b⟩ := e
      obtain ⟨img, himg, hobs, hcase⟩ := lazyStep_some hs
      rcases hcase with ⟨rfl, rfl⟩ | ⟨rfl, rfl⟩
      · by_cases hke : k = i
        · subst hke
          have hlt : k < imgs.length := by
            by_contra hge
            rw [List.getElem?_eq_none (Nat.le_of_not_lt hge)] at himg
            cases himg
          rw [List.getElem?_set_self hlt] at hk'
          have hInv := hinv k o img hk himg
          cases hk'
          rcases hInv with h1 | ⟨hsome, h2⟩
          · by_cases hds : o.dataSrc.isSome
            · refine Or.inr ⟨hds, ?_⟩
              subst h1
              simp [obsInit, if_pos hds, firedOf]
            · exfalso
              rw [obsInit, if_neg hds] at h1
              subst h1
              exact absurd (h0 k img hk) (by simp [hobs])
          · exfalso
            rw [h2] at hobs
            simp [firedOf] at hobs
        · rw [List.getElem?_set_ne (fun hh => hke hh.symm)] at hk'
          exact hinv k o c hk hk'
      · exact hinv k o c hk hk'

/-- C8.  With intersection observation available: starting from a
document whose images are unobserved and have triggered no load attempt,
after any accepted sequence of entry deliveries, every image has at most
one load attempt; an image with none keeps its original `src` and
`data-src`; an image with exactly one was reported intersecting, is no
longer observed, has the deferred source as its real source and the
`data-src` attribute removed; and an image never reported intersecting
is exactly in its initial (merely observed) shape.  Entries are modelled
as delivered one at a time and only for targets still observed
(`obs.unobserve` stops later deliveries). -/
theorem lazy_observer_one_shot (imgs0 : List Img) (tr : List (Nat × Bool)) (cur : List Img)
    (h0 : ∀ i ∈ imgs0, i.observed = false ∧ i.loads = 0)
    (hrun : lazyRun (observeAll imgs0) tr = some cur) :
    cur.length = imgs0.length ∧
    ∀ (k : Nat) (o c : Img), imgs0[k]? = some o → cur[k]? = some c →
      (c.loads ≤ 1 ∧
       (c.loads = 0 → c.src = o.src ∧ c.dataSrc = o.dataSrc) ∧
       (c.loads = 1 → o.dataSrc.isSome ∧ c.src = o.dataSrc ∧ c.dataSrc = none ∧
                      c.observed = false ∧ (k, true) ∈ tr) ∧
       ((k, true) ∉ tr → c = obsInit o)) := by
  have h0' : ∀ (k : Nat) (o : Img), imgs0[k]? = some o → o.observed = false :=
    fun k o hk => (h0 o (List.getElem?_mem hk)).1
  constructor
  · rw [lazyRun_length tr _ cur hrun]
    simp [observeAll]
  intro k o c hk hkc
  have hmap : (observeAll imgs0)[k]? = some (obsInit o) := by
    simp [observeAll, List.getElem?_map, hk]
  have hstart : ∀ (j : Nat) (o' c' : Img),
      imgs0[j]? = some o' → (observeAll imgs0)[j]? = some c' → LazyInv o' c' := by
    intro j o' c' hj hj'
    simp only [observeAll, List.getElem?_map, hj, Option.map_some'] at hj'
    exact Or.inl (Option.some.inj hj').symm
  have hInv := lazyRun_inv imgs0 h0' tr _ cur hrun hstart k o c hk hkc
  obtain ⟨hoobs, holoads⟩ := h0 o (List.getElem?_mem hk)
  have huntouched : (k, true) ∉ tr → c = obsInit o := by
    intro hnm
    have := lazyRun_untouched k tr _ cur hnm hrun
    rw [hkc, hmap] at this
    exact Option.some.inj this
  rcases hInv with rfl | ⟨hds, rfl⟩
  · refine ⟨?_, ?_, ?_, fun _ => rfl⟩
    · by_cases hds : o.dataSrc.isSome <;> simp [obsInit, hds, holoads]
    · intro _
      by_cases hds : o.dataSrc.isSome <;> simp [obsInit, hds]
    · intro hl
      exfalso
      by_cases hds : o.dataSrc.isSome <;> simp [obsInit, hds, holoads] at hl
  · refine ⟨?_, ?_, ?_, huntouched⟩
    · simp [firedOf, holoads]
    · intro hl; exfalso; simp [firedOf, holoads] at hl
    · intro _
      refine ⟨hds, rfl, rfl, rfl, ?_⟩
      by_contra hnm
      have hco := huntouched hnm
      have : (firedOf o).observed = (obsInit o).observed := by rw [← hco]
      rw [firedOf, obsInit, if_pos hds] at this
      simp at this

/-- Witness for `lazy_observer_one_shot`: one deferred image, one
intersecting report; it loads once. -/
theorem lazy_observer_one_shot_witness :
    (⟨some "real", none, false, 1⟩ : Img).loads ≤ 1 ∧ (0, true) ∈ [(0, true)] := by
  have h := lazy_observer_one_shot [⟨some "ph", some "real", false, 0⟩] [(0, true)]
      [⟨some "real", none, false, 1⟩] (by decide) (by decide)
  have h3 := h.2 0 ⟨some "ph", some "real", false, 0⟩ ⟨some "real", none, false, 1⟩ rfl rfl
  exact ⟨h3.1, (h3.2.2.1 rfl).2.2.2.2⟩

/-- C9.  In the fallback path (no `IntersectionObserver`), every image
with a deferred source gets it assigned as real source immediately — one
load attempt — but the `data-src` attribute is NOT removed: it keeps its
original value; images without the attribute are untouched. -/
theorem lazy_fallback_keeps_attr (imgs : List Img) (k : Nat) (o c : Img)
    (hk : imgs[k]? = some o) (hc : (lazyFallback imgs)[k]? = some c) :
    (o.dataSrc.isSome → c.src = o.dataSrc ∧ c.dataSrc = o.dataSrc ∧
      c.loads = o.loads + 1) ∧
    (o.dataSrc = none → c = o) := by
  simp only [lazyFallback, List.getElem?_map, hk, Option.map_some'] at hc
  have hce := Option.some.inj hc
  subst hce
  constructor
  · intro hds; simp [hds]
  · intro hds; simp [hds]

/-- Witness for `lazy_fallback_keeps_attr`: one deferred image; after
the fallback its `data-src` is still present. -/
theorem lazy_fallback_keeps_attr_witness :
    ((⟨some "r", some "r", false, 1⟩ : Img).src = some "r" ∧
     (⟨some "r", some "r", false, 1⟩ : Img).dataSrc = some "r" ∧
     (⟨some "r", some "r", false, 1⟩ : Img).loads = 0 + 1) :=
  (lazy_fallback_keeps_attr [⟨none, some "r", false, 0⟩] 0
    ⟨none, some "r", false, 0⟩ ⟨some "r", some "r", false, 1⟩ rfl rfl).1 rfl

/-! ## Claims about the hover / focus spotlight -/

/-- Setting one entry of an all-`false` list to `true` yields exactly one
`true`. -/
theorem count_true_set_replicate (n c : Nat) (hc : c < n) :
    ((List.replicate n false).set c true).count true = 1 := by
  induction n generalizing c with
  | zero => exact absurd hc (Nat.not_lt_zero c)
  | succ n ih =>
    cases c with
    | zero =>
      simp [List.replicate_succ, List.count_cons, List.count_replicate]
    | succ c =>
      simp only [List.replicate_succ, List.set]
      rw [List.count_cons_of_ne (by simp)]
      exact ih c (Nat.lt_of_succ_lt_succ hc)

/-- C2, counterexample.  The claim says at most one card is ever active
document-wide.  After a hover reveal fires on card 0, a `focusin` on
card 1 adds the active classes without removing card 0's (the `focusin`
handler, lines 164-167, clears nothing), leaving TWO active cards. -/
theorem two_cards_active_after_focus :
    (hRun 3400 (hInit 2) [.enter 0 0, .fire 0 3400, .focusin 1]).map
      (fun s => s.active.count true) = some 2 := by decide

/-- C2, amended.  The hover-reveal timer callback itself does maintain
the invariant: in the same update it removes `active`/`show-caption`
from every card and adds them to the hovered card, so immediately after
any reveal fires exactly one card is active and dim-mode is on.  (The
hypothesis that scheduled timeouts point at existing cards holds for all
states reachable from `hInit`, since `enter` requires a valid index.)
The focus handlers do not preserve this invariant, as
`two_cards_active_after_focus` shows. -/
theorem fire_exactly_one_active (delay : Int) (s s' : HState) (tid : Nat) (t : Int)
    (hcards : ∀ p ∈ s.pending, p.card < s.active.length)
    (h : hStep delay s (.fire tid t) = some s') :
    s'.dimMode = true ∧ s'.active.count true = 1 := by
  simp only [hStep] at h
  cases hf : s.pending.find? (fun p => p.id = tid) with
  | none => simp only [hf] at h; cases h
  | some p =>
    simp only [hf] at h
    by_cases hcond : p.fireAt ≤ t ∧ ∀ q ∈ s.pending, p.fireAt ≤ q.fireAt
    · rw [if_pos hcond] at h
      have hce := Option.some.inj h
      subst hce
      refine ⟨rfl, ?_⟩
      have hp := List.mem_of_find?_eq_some hf
      have hlt := hcards p hp
      simpa using count_true_set_replicate s.active.length p.card (by simpa using hlt)
    · rw [if_neg hcond] at h
      cases h

/-- Witness for `fire_exactly_one_active`: two cards, one pending reveal
for card 0, the reveal fires at its due time. -/
theorem fire_exactly_one_active_witness :
    (⟨true, [true, false], [], some 0, 1⟩ : HState).dimMode = true ∧
    (⟨true, [true, false], [], some 0, 1⟩ : HState).active.count true = 1 :=
  fire_exactly_one_active 3400 ⟨false, [false, false], [⟨0, 0, 3400⟩], some 0, 1⟩
    ⟨true, [true, false], [], some 0, 1⟩ 0 3400 (by decide) (by decide)

/-- C1, counterexample.  All four handlers share ONE module-scoped
`timer` variable.  Interleaved entries: enter card 0 at 0ms, enter card
1 at 1ms, leave card 0 at 2ms, leave card 1 at 3ms — every enter is
matched by a leave well before the 3400ms delay.  The first leave clears
`timer`, which then holds card 1's timeout id, so card 0's timeout is
orphaned and still fires at 3400ms: dim-mode IS applied and card 0
becomes active, refuting "the spotlighted/dimmed state is never
applied", "a pointer-leave cancels that card's pending activation" and
"pending activations never stack". -/
theorem hover_interleaved_fires :
    hRun 3400 (hInit 2)
      [.enter 0 0, .enter 1 1, .reset 0 2, .reset 1 3, .fire 0 3400] =
      some ⟨true, [true, false], [], none, 2⟩ := by decide

/-- Alternation discipline on a trace: only `enter` and `reset` events,
and no second `enter` before an intervening `reset` (the realizable
pattern for non-nested sibling cards, where `mouseleave` always precedes
the next `mouseenter`).  Returns the final open/closed flag. -/
def altState : Bool → List HEvent → Option Bool
  | b, [] => some b
  | false, .enter _ _ :: es => altState true es
  | _, .reset _ _ :: es => altState false es
  | _, _ => none

/-- Quiescence invariant for alternating traces: no dim, no active card,
and at most one pending reveal, which is exactly the one `timer` holds
(so the next reset cancels it). -/
def HoverQuiet (n : Nat) (b : Bool) (s : HState) : Prop :=
  s.dimMode = false ∧ s.active = List.replicate n false ∧
  (b = true → ∃ p, s.pending = [p] ∧ s.timer = some p.id) ∧
  (b = false → s.pending = [])

/-- `HoverQuiet` is preserved along any alternating trace. -/
theorem hover_alternating_inv (delay : Int) (n : Nat) :
    ∀ (tr : List HEvent) (b b' : Bool) (s s' : HState),
      HoverQuiet n b s → altState b tr = some b' →
      hRun delay s tr = some s' → HoverQuiet n b' s' := by
  intro tr
  induction tr with
  | nil =>
    intro b b' s s' hq ha hr
    simp only [altState, Option.some.injEq] at ha
    simp only [hRun, Option.some.injEq] at hr
    subst ha
    subst hr
    exact hq
  | cons e es ih =>
    intro b b' s s' hq ha hr
    rw [hRun] at hr
    cases hs : hStep delay s e with
    | none => rw [hs] at hr; cases hr
    | some s1 =>
      rw [hs] at hr
      obtain ⟨hdim, hact, hopen, hclosed⟩ := hq
      cases e with
      | enter i t =>
        cases b with
        | true => simp [altState] at ha
        | false =>
          simp only [altState] at ha
          refine ih true b' s1 s' ?_ ha hr
          simp only [hStep] at hs
          by_cases hi : i < s.active.length
          · rw [if_pos hi] at hs
            have hse := Option.some.inj hs
            subst hse
            refine ⟨hdim, hact, ?_, by simp⟩
            intro _
            exact ⟨⟨s.nextId, i, t + delay⟩, by simp [hclosed rfl], rfl⟩
          · rw [if_neg hi] at hs; cases hs
      | reset i t =>
        have ha' : altState false es = some b' := by
          cases b <;> simpa [altState] using ha
        refine ih false b' s1 s' ?_ ha' hr
        simp only [hStep] at hs
        by_cases hi : i < s.active.length
        · rw [if_pos hi] at hs
          have hse := Option.some.inj hs
          subst hse
          refine ⟨rfl, by rw [hact, List.set_replicate_self], by simp, ?_⟩
          intro _
          cases b with
          | false => simp [hclosed rfl]
          | true =>
            obtain ⟨p, hp, ht⟩ := hopen rfl
            rw [hp, ht]
            simp
        · rw [if_neg hi] at hs; cases hs
      | fire tid t => cases b <;> simp [altState] at ha
      | escape => cases b <;> simp [altState] at ha
      | focusin i => cases b <;> simp [altState] at ha
      | focusout i => cases b <;> simp [altState] at ha

/-- C1, amended.  For any alternating sequence of enters and resets (no
second enter before an intervening reset — the only sequences realizable
for non-nested sibling cards) during which no reveal timer fires, the
spotlighted/dimmed state is never applied: at the end (and, applying
this theorem to any prefix, at every instant) dim-mode is off and no
card is active; after a trailing reset no pending activation remains, so
the reveal can never fire later.  With truly interleaved entries the
property fails (`hover_interleaved_fires`): a reset cancels only the
most recently scheduled activation, not necessarily that card's own. -/
theorem hover_alternating_no_dim (delay : Int) (n : Nat) (tr : List HEvent)
    (b' : Bool) (s' : HState)
    (ha : altState false tr = some b')
    (hr : hRun delay (hInit n) tr = some s') :
    s'.dimMode = false ∧ s'.active = List.replicate n false ∧
    (b' = false → s'.pending = []) := by
  have hq := hover_alternating_inv delay n tr false b' (hInit n) s'
    ⟨rfl, rfl, by simp, fun _ => rfl⟩ ha hr
  exact ⟨hq.1, hq.2.1, hq.2.2.2⟩

/-- Witness for `hover_alternating_no_dim`: two cards, enter/leave card
0 then enter/leave card 1, all before 3400ms. -/
theorem hover_alternating_no_dim_witness :
    (⟨false, [false, false], [], none, 2⟩ : HState).dimMode = false ∧
    (⟨false, [false, false], [], none, 2⟩ : HState).active = List.replicate 2 false ∧
    (false = false → (⟨false, [false, false], [], none, 2⟩ : HState).pending = []) :=
  hover_alternating_no_dim 3400 2
    [.enter 0 0, .reset 0 5, .enter 1 10, .reset 1 12] false
    ⟨false, [false, false], [], none, 2⟩ (by decide) (by decide)
